import Mathlib

/-!
Verification of the OVN ML2 mechanism driver's security-group ACL engine
(`networking_ovn/ml2/mech_driver.py`).

The driver code under `src/` is embedded faithfully below.  Helper functions
it calls from `networking_ovn.common.acl` and the OVSDB client
(`impl_idl_ovn`, `utils`) are not part of `src/`; those are modelled from the
specification and marked `Modelled from the spec:` in their doc comments.
-/

namespace NetworkingOvn

/-- A fixed IP entry of a Neutron port: `{'subnet_id': ..., 'ip_address': ...}`. -/
structure FixedIp where
  subnet_id : String
  ip_address : String
deriving DecidableEq

/-- An allowed-address pair of a Neutron port. -/
structure AddressPair where
  mac_address : String
  ip_address : String
deriving DecidableEq

/-- Direction of a security-group rule. -/
inductive Direction where
  | ingress
  | egress
deriving DecidableEq

/-- Ethertype of a security-group rule. -/
inductive Ethertype where
  | ipv4
  | ipv6
deriving DecidableEq

/-- A security-group rule, as delivered by the policy store (validated).
`remote_ip_pfx` embeds the source's `remote_ip_prefix` field. -/
structure SGRule where
  id : String
  security_group_id : String
  direction : Direction
  ethertype : Ethertype
  protocol : Option String
  port_range_min : Option Nat
  port_range_max : Option Nat
  remote_ip_pfx : Option String
  remote_group_id : Option String
deriving DecidableEq

/-- A security group: its id and its set of rules. -/
structure SecurityGroup where
  id : String
  security_group_rules : List SGRule
deriving DecidableEq

/-- A Neutron subnet (the fields the driver reads). -/
structure Subnet where
  id : String
  cidr : String
  ip_version : Nat
deriving DecidableEq

/-- A Neutron port (the fields the driver reads). -/
structure Port where
  id : String
  network_id : String
  name : String
  mac_address : String
  fixed_ips : List FixedIp
  security_groups : List String
  port_security_enabled : Bool
  allowed_address_pairs : List AddressPair
  admin_state_up : Bool
deriving DecidableEq

/-- The read-only policy-store query interface (`self._plugin` plus the
group/port/subnet fetchers).  `ports` is the port table;
`get_ports_in_group` maps a security-group id to the ids of its member ports
(the security-group/port bindings); `groups_with_rules_referencing` returns
the `security_group_id` of every rule whose `remote_group_id` is the given
group (the `get_security_group_rules` call with a `remote_group_id` filter). -/
structure Plugin where
  ports : List Port
  get_subnet : String → Subnet
  get_security_group : String → SecurityGroup
  get_ports_in_group : String → List String
  groups_with_rules_referencing : String → List String

/-- `get_ports(filters={'id': ids})`: the port rows whose id is in `ids`. -/
def Plugin.get_ports (plugin : Plugin) (ids : List String) : List Port :=
  plugin.ports.filter (fun p => ids.contains p.id)

/-- An OVN ACL row as assembled by the compiler.  `acl_match` embeds the
source's `match` key. -/
structure ACL where
  lswitch : String
  lport : String
  priority : Nat
  action : String
  direction : String
  acl_match : String
deriving DecidableEq

/-- Modelled from the spec: `utils.ovn_name`, the deterministic 1:1 map from
a policy network id to the backend logical-switch name. -/
def ovn_name (network_id : String) : String :=
  "neutron-" ++ network_id

/-- Priority of allow ACLs compiled from rules (and the DHCP exception). -/
def ACL_PRIORITY_ALLOW : Nat := 1002

/-- Priority of the default drop-all pair (lowest priority). -/
def ACL_PRIORITY_DROP : Nat := 1001

/-- The drop-all-ingress entry of the default-deny pair for a port. -/
def drop_ingress_acl (port : Port) : ACL :=
  { lswitch := ovn_name port.network_id
    lport := port.id
    priority := ACL_PRIORITY_DROP
    action := "drop"
    direction := "to-lport"
    acl_match := "outport == " ++ port.id ++ " && ip" }

/-- The drop-all-egress entry of the default-deny pair for a port. -/
def drop_egress_acl (port : Port) : ACL :=
  { lswitch := ovn_name port.network_id
    lport := port.id
    priority := ACL_PRIORITY_DROP
    action := "drop"
    direction := "from-lport"
    acl_match := "inport == " ++ port.id ++ " && ip" }

/-- Modelled from the spec: `ovn_acl.drop_all_ip_traffic_for_port` — the
default drop-all ingress and drop-all egress pair (§4.1 step 2). -/
def drop_all_ip_traffic_for_port (port : Port) : List ACL :=
  [drop_ingress_acl port, drop_egress_acl port]

/-- Modelled from the spec: `ovn_acl.add_acl_dhcp` — the fixed allow entry
for DHCP client traffic on an IPv4 subnet (§4.1 step 3, a narrow
protocol/port match determined by the subnet). -/
def add_acl_dhcp (port : Port) (subnet : Subnet) : List ACL :=
  [{ lswitch := ovn_name port.network_id
     lport := port.id
     priority := ACL_PRIORITY_ALLOW
     action := "allow"
     direction := "to-lport"
     acl_match := "outport == " ++ port.id ++ " && ip4 && ip4.src == " ++
       subnet.cidr ++ " && udp && udp.src == 67 && udp.dst == 68" }]

/-- Modelled from the spec: `ovn_acl.acl_direction` — the direction
predicate of the match, plus the remote port-direction token (§4.1 step 4,
first component of the fixed concatenation order). -/
def acl_direction (r : SGRule) (port : Port) : String × String :=
  match r.direction with
  | .ingress => ("outport == " ++ port.id, "inport")
  | .egress => ("inport == " ++ port.id, "outport")

/-- Modelled from the spec: `ovn_acl.acl_ethertype` — the ethertype
predicate, the IP version it scopes to, and the matching icmp protocol
token (§4.1 step 4, second component). -/
def acl_ethertype (r : SGRule) : String × Nat × String :=
  match r.ethertype with
  | .ipv4 => (" && ip4", 4, "icmp4")
  | .ipv6 => (" && ip6", 6, "icmp6")

/-- Modelled from the spec: `ovn_acl.acl_remote_ip_prefix` — the optional
remote-IP-prefix predicate, scoped to the requested IP version (§4.1 step 4,
third component). -/
def acl_remote_ip_pfx (r : SGRule) (ip_version : Nat) : String :=
  match r.remote_ip_pfx with
  | none => ""
  | some p =>
    let src_or_dst := match r.direction with
      | .ingress => "src"
      | .egress => "dst"
    " && ip" ++ toString ip_version ++ "." ++ src_or_dst ++ " == " ++ p

/-- Modelled from the spec: `ovn_acl.acl_protocol_and_ports` — the
protocol/port-range predicate (§4.1 step 4, last component). -/
def acl_protocol_and_ports (r : SGRule) (icmp : String) : String :=
  match r.protocol with
  | none => ""
  | some proto =>
    let proto := if proto = "icmp" then icmp else proto
    let m := " && " ++ proto
    let m := match r.port_range_min with
      | some pmin => m ++ " && " ++ proto ++ ".dst >= " ++ toString pmin
      | none => m
    match r.port_range_max with
    | some pmax => m ++ " && " ++ proto ++ ".dst <= " ++ toString pmax
    | none => m

/-- Modelled from the spec: `ovn_acl.add_sg_rule_acl_for_port` — the ACL
record for one compiled rule: direction, priority, allow action, the match,
and the correlation ids of the owning switch and port. -/
def add_sg_rule_acl_for_port (port : Port) (r : SGRule) (m : String) : ACL :=
  { lswitch := ovn_name port.network_id
    lport := port.id
    priority := ACL_PRIORITY_ALLOW
    action := "allow-related"
    direction := match r.direction with
      | .ingress => "to-lport"
      | .egress => "from-lport"
    acl_match := m }

/-- A request-scoped, lazily populated cache (§2 Membership Cache Layer):
an association list from key to fetched value. -/
abbrev Cache (α : Type) := List (String × α)

/-- Modelled from the spec: the lazily-populated cache lookup pattern of
`ovn_acl._get_sg_ports_from_cache` / `_get_subnet_from_cache` /
`_get_sg_from_cache`: use the cached value when present, otherwise query the
policy store and remember the answer for the rest of the pass. -/
def cache_fetch {α : Type} (fetch : String → α) (cache : Cache α)
    (key : String) : α × Cache α :=
  match cache.find? (fun kv => kv.fst == key) with
  | some kv => (kv.snd, cache)
  | none => (fetch key, (key, fetch key) :: cache)

/-- Modelled from the spec: the per-fixed-ip inner loop of
`ovn_acl._acl_remote_match_ip` — each peer address whose subnet has the
requested IP version contributes one address term, threading the subnet
cache. -/
def remote_fixed_ip_addrs (plugin : Plugin) (ip_version : Nat)
    (src_or_dst : String) :
    List FixedIp → Cache Subnet → List String × Cache Subnet
  | [], sc => ([], sc)
  | ip :: rest, sc =>
    let fs := cache_fetch plugin.get_subnet sc ip.subnet_id
    let rr := remote_fixed_ip_addrs plugin ip_version src_or_dst rest fs.snd
    if fs.fst.ip_version == ip_version then
      (("ip" ++ toString ip_version ++ "." ++ src_or_dst ++ " == " ++
        ip.ip_address) :: rr.fst, rr.snd)
    else rr

/-- Modelled from the spec: the per-peer-port loop of
`ovn_acl._acl_remote_match_ip`. -/
def remote_port_addrs (plugin : Plugin) (ip_version : Nat)
    (src_or_dst : String) :
    List Port → Cache Subnet → List String × Cache Subnet
  | [], sc => ([], sc)
  | p :: rest, sc =>
    let fr := remote_fixed_ip_addrs plugin ip_version src_or_dst p.fixed_ips sc
    let rr := remote_port_addrs plugin ip_version src_or_dst rest fr.snd
    (fr.fst ++ rr.fst, rr.snd)

/-- Modelled from the spec: `ovn_acl._acl_remote_match_ip` — expand a peer
port set into an IP-address disjunction scoped to the requested IP version,
using each peer's subnet to determine applicable addresses (§4.1 step 4). -/
def acl_remote_match_ip (plugin : Plugin) (sg_ports : List String)
    (subnet_cache : Cache Subnet) (ip_version : Nat) (src_or_dst : String) :
    String × Cache Subnet :=
  let peer_ports := plugin.ports.filter (fun p => sg_ports.contains p.id)
  let ar := remote_port_addrs plugin ip_version src_or_dst peer_ports
    subnet_cache
  if ar.fst.isEmpty then ("", ar.snd)
  else (" && (" ++ String.intercalate " || " ar.fst ++ ")", ar.snd)

/-- `OVNMechanismDriver._acl_remote_group_id` (src lines 458-485): resolve
the rule's remote group, excluding the port being compiled; an empty
resolved peer set sets the `empty_match` flag so the rule produces no ACL. -/
def _acl_remote_group_id (plugin : Plugin) (r : SGRule)
    (sg_ports_cache : Cache (List String)) (subnet_cache : Cache Subnet)
    (port : Port) (ip_version : Nat) :
    (String × Bool) × Cache (List String) × Cache Subnet :=
  match r.remote_group_id with
  | none => (("", false), sg_ports_cache, subnet_cache)
  | some rg =>
    let fr := cache_fetch plugin.get_ports_in_group sg_ports_cache rg
    let sg_ports := fr.fst.filter (fun pid => pid != port.id)
    if sg_ports.isEmpty then
      (("", true), fr.snd, subnet_cache)
    else
      let src_or_dst := match r.direction with
        | .ingress => "src"
        | .egress => "dst"
      let mr := acl_remote_match_ip plugin sg_ports subnet_cache ip_version
        src_or_dst
      ((mr.fst, false), fr.snd, mr.snd)

/-- `OVNMechanismDriver._add_sg_rule_acl_for_port` (src lines 487-518):
compile one rule for one port into an optional ACL record, concatenating the
direction, ethertype, remote-prefix, remote-group and protocol predicates in
fixed order; `none` when the rule's remote group resolves to an empty peer
set. -/
def _add_sg_rule_acl_for_port (plugin : Plugin) (port : Port) (r : SGRule)
    (sg_ports_cache : Cache (List String)) (subnet_cache : Cache Subnet) :
    Option ACL × Cache (List String) × Cache Subnet :=
  let dm := acl_direction r port
  let et := acl_ethertype r
  let m := dm.fst ++ et.fst ++ acl_remote_ip_pfx r et.snd.fst
  let gr := _acl_remote_group_id plugin r sg_ports_cache subnet_cache port
    et.snd.fst
  if gr.fst.snd then
    (none, gr.snd.fst, gr.snd.snd)
  else
    let m := m ++ gr.fst.fst ++ acl_protocol_and_ports r et.snd.snd
    (some (add_sg_rule_acl_for_port port r m), gr.snd.fst, gr.snd.snd)

/-- The DHCP loop of `_add_acls` (src lines 534-541): for each fixed IP
whose subnet is IPv4, append the DHCP allow entry. -/
def dhcp_acls (plugin : Plugin) (port : Port) :
    List FixedIp → Cache Subnet → List ACL × Cache Subnet
  | [], sc => ([], sc)
  | ip :: rest, sc =>
    let fs := cache_fetch plugin.get_subnet sc ip.subnet_id
    let rr := dhcp_acls plugin port rest fs.snd
    if fs.fst.ip_version != 4 then rr
    else (add_acl_dhcp port fs.fst ++ rr.fst, rr.snd)

/-- The inner rule loop of `_add_acls` (src lines 550-556): compile each
rule; append the resulting ACL unless it is `none` or already present. -/
def add_rule_acls (plugin : Plugin) (port : Port) :
    List SGRule → List ACL → Cache (List String) → Cache Subnet →
    List ACL × Cache (List String) × Cache Subnet
  | [], acc, spc, sc => (acc, spc, sc)
  | r :: rest, acc, spc, sc =>
    let res := _add_sg_rule_acl_for_port plugin port r spc sc
    let acc := match res.fst with
      | some acl => if acc.contains acl then acc else acc ++ [acl]
      | none => acc
    add_rule_acls plugin port rest acc res.snd.fst res.snd.snd

/-- The outer group loop of `_add_acls` (src lines 545-556): fetch each
attached group through the cache and run its rules. -/
def add_group_acls (plugin : Plugin) (port : Port) :
    List String → List ACL → Cache SecurityGroup → Cache (List String) →
    Cache Subnet →
    List ACL × Cache SecurityGroup × Cache (List String) × Cache Subnet
  | [], acc, sgc, spc, sc => (acc, sgc, spc, sc)
  | sg_id :: rest, acc, sgc, spc, sc =>
    let fg := cache_fetch plugin.get_security_group sgc sg_id
    let rr := add_rule_acls plugin port fg.fst.security_group_rules acc spc sc
    add_group_acls plugin port rest rr.fst fg.snd rr.snd.fst rr.snd.snd

/-- `OVNMechanismDriver._add_acls` (src lines 520-558): the full per-port
ACL compile.  Empty when the port has no attached groups; otherwise the
default drop-all pair, the DHCP exceptions, and one deduplicated entry per
compiled rule. -/
def _add_acls (plugin : Plugin) (port : Port) (sg_cache : Cache SecurityGroup)
    (sg_ports_cache : Cache (List String)) (subnet_cache : Cache Subnet) :
    List ACL × Cache SecurityGroup × Cache (List String) × Cache Subnet :=
  if port.security_groups.isEmpty then
    ([], sg_cache, sg_ports_cache, subnet_cache)
  else
    let acl_list := drop_all_ip_traffic_for_port port
    let dr := dhcp_acls plugin port port.fixed_ips subnet_cache
    add_group_acls plugin port port.security_groups (acl_list ++ dr.fst)
      sg_cache sg_ports_cache dr.snd

/-- Python `set(...)` applied to a list of ids: deduplication (order is
irrelevant to every property proved below, only membership matters). -/
def dedup : List String → List String
  | [] => []
  | x :: xs =>
    let rest := dedup xs
    if rest.contains x then rest else x :: rest

/-- The one Python error the embedded driver can raise on its own:
calling `.pop` on `None` (an `AttributeError`). -/
inductive PyErr where
  | attributeError
deriving DecidableEq

/-- An ACL record after `acl.pop('lport')` / `acl.pop('lswitch')` in the
targeted-rule path of `_update_acls_for_security_group`. -/
structure AclCore where
  priority : Nat
  action : String
  direction : String
  acl_match : String
deriving DecidableEq

/-- Drop the `lport` and `lswitch` keys of an ACL record. -/
def popAcl (a : ACL) : AclCore :=
  { priority := a.priority
    action := a.action
    direction := a.direction
    acl_match := a.acl_match }

/-- One value of the `acl_new_values_dict` handed to `update_acls`: a single
rule-derived record in the targeted path, a full per-port list otherwise. -/
inductive AclNewValue where
  | one (core : AclCore)
  | many (acls : List ACL)
deriving DecidableEq

/-- One invocation of the Apply Layer's `update_acls` call, as assembled by
`_update_acls_for_security_group`. -/
structure UpdateAclsCall where
  lswitch_names : List String
  port_ids : List String
  acl_new_values : List (String × AclNewValue)
  need_compare : Bool
  is_add_acl : Bool
deriving DecidableEq

/-- The targeted (`rule`-given) loop of `_update_acls_for_security_group`
(src lines 617-625): per attached port, compile the single rule and then
unconditionally `acl.pop('lport')`; when the compile returned `None`
(empty remote-group peer set) that attribute access raises. -/
def rule_branch (plugin : Plugin) (r : SGRule) :
    List Port → Cache (List String) → Cache Subnet →
    Except PyErr
      (List (String × AclCore) × Cache (List String) × Cache Subnet)
  | [], spc, sc => .ok ([], spc, sc)
  | p :: rest, spc, sc =>
    let res := _add_sg_rule_acl_for_port plugin p r spc sc
    match res.fst with
    | none => .error .attributeError
    | some acl =>
      match rule_branch plugin r rest res.snd.fst res.snd.snd with
      | .error e => .error e
      | .ok t => .ok ((p.id, popAcl acl) :: t.fst, t.snd)

/-- The full-recompute loop of `_update_acls_for_security_group` (src lines
627-633): per attached port, the complete `_add_acls` output. -/
def full_branch (plugin : Plugin) :
    List Port → Cache SecurityGroup → Cache (List String) → Cache Subnet →
    List (String × List ACL) ×
      Cache SecurityGroup × Cache (List String) × Cache Subnet
  | [], sgc, spc, sc => ([], sgc, spc, sc)
  | p :: rest, sgc, spc, sc =>
    let r1 := _add_acls plugin p sgc spc sc
    let rr := full_branch plugin rest r1.snd.fst r1.snd.snd.fst r1.snd.snd.snd
    ((p.id, r1.fst) :: rr.fst, rr.snd)

/-- `OVNMechanismDriver._update_acls_for_security_group` (src lines
581-639): resolve the group's member ports (minus excluded ones), then
either the targeted single-rule path (`need_compare=False`) or the full
per-port recompute (`need_compare=True`), ending in one `update_acls`
submission. -/
def _update_acls_for_security_group (plugin : Plugin)
    (security_group_id : String) (sg_cache : Cache SecurityGroup)
    (sg_ports_cache : Cache (List String)) (subnet_cache : Cache Subnet)
    (exclude_ports : List String) (rule : Option SGRule)
    (is_add_acl : Bool) :
    Except PyErr
      (UpdateAclsCall ×
        Cache SecurityGroup × Cache (List String) × Cache Subnet) :=
  let fr := cache_fetch plugin.get_ports_in_group sg_ports_cache
    security_group_id
  let sg_port_ids := (dedup fr.fst).filter
    (fun pid => !(exclude_ports.contains pid))
  let port_list := plugin.get_ports sg_port_ids
  let lswitch_names := dedup (port_list.map (fun p => p.network_id))
  match rule with
  | some r =>
    match rule_branch plugin r port_list fr.snd subnet_cache with
    | .error e => .error e
    | .ok t =>
      .ok ({ lswitch_names := lswitch_names
             port_ids := port_list.map (fun p => p.id)
             acl_new_values := t.fst.map (fun kv => (kv.fst, .one kv.snd))
             need_compare := false
             is_add_acl := is_add_acl },
           sg_cache, t.snd.fst, t.snd.snd)
  | none =>
    let fb := full_branch plugin port_list sg_cache fr.snd subnet_cache
    .ok ({ lswitch_names := lswitch_names
           port_ids := port_list.map (fun p => p.id)
           acl_new_values := fb.fst.map (fun kv => (kv.fst, .many kv.snd))
           need_compare := true
           is_add_acl := is_add_acl },
         fb.snd)

/-- The loop of `_refresh_remote_security_group` over the referencing
groups, recording which group each full recompute was issued for. -/
def refresh_go (plugin : Plugin) (exclude_ports : List String) :
    List String → Cache SecurityGroup → Cache (List String) → Cache Subnet →
    Except PyErr
      (List (String × UpdateAclsCall) ×
        Cache SecurityGroup × Cache (List String) × Cache Subnet)
  | [], sgc, spc, sc => .ok ([], sgc, spc, sc)
  | g :: rest, sgc, spc, sc =>
    match _update_acls_for_security_group plugin g sgc spc sc exclude_ports
      none true with
    | .error e => .error e
    | .ok t =>
      match refresh_go plugin exclude_ports rest t.snd.fst t.snd.snd.fst
        t.snd.snd.snd with
      | .error e => .error e
      | .ok u => .ok ((g, t.fst) :: u.fst, u.snd)

/-- `OVNMechanismDriver._refresh_remote_security_group` (src lines 560-579):
for every security group holding a rule that references `sec_group` as its
remote group, rerun the full recompute of its ports' ACLs, propagating the
excluded-port list. -/
def _refresh_remote_security_group (plugin : Plugin) (sec_group : String)
    (sg_cache : Cache SecurityGroup) (sg_ports_cache : Cache (List String))
    (subnet_cache : Cache Subnet) (exclude_ports : List String) :
    Except PyErr
      (List (String × UpdateAclsCall) ×
        Cache SecurityGroup × Cache (List String) × Cache Subnet) :=
  refresh_go plugin exclude_ports
    (dedup (plugin.groups_with_rules_referencing sec_group))
    sg_cache sg_ports_cache subnet_cache

/-- The OVN northbound database contents this driver touches: logical
switches by name, logical ports as (name, owning switch), and ACL rows. -/
structure Backend where
  lswitches : List String
  lports : List (String × String)
  acls : List ACL
deriving DecidableEq

/-- One operation added to a backend transaction (`txn.add(...)`). -/
inductive TxnOp where
  | create_lport (name : String) (lswitch : String)
  | add_acl (acl : ACL)
  | set_lport (name : String)
  | delete_acl (lswitch : String) (lport : String)
  | delete_lport (name : String) (lswitch : String)
deriving DecidableEq

/-- Effect of a single accepted operation on the backend state. -/
def applyOp (b : Backend) (op : TxnOp) : Backend :=
  match op with
  | .create_lport name lswitch =>
    { b with lports := b.lports ++ [(name, lswitch)] }
  | .add_acl acl => { b with acls := b.acls ++ [acl] }
  | .set_lport _ => b
  | .delete_acl lswitch lport =>
    { b with
        acls := b.acls.filter
          (fun a => !(a.lswitch == lswitch && a.lport == lport)) }
  | .delete_lport name lswitch =>
    { b with
        lports := b.lports.filter
          (fun p => !(p.fst == name && p.snd == lswitch)) }

/-- Modelled from the spec: the backend transaction interface (§6, §4.3) —
an ordered list of operations submitted as one atomic unit; if the backend
rejects any operation none of them take effect (`none`), otherwise all are
applied. -/
def transaction_commit (b : Backend) (accept : TxnOp → Bool)
    (ops : List TxnOp) : Option Backend :=
  if ops.all accept then some (ops.foldl applyOp b) else none

/-- The operation list of the single transaction opened by
`create_port_in_ovn` (src lines 649-670): the logical-port create followed
by one `add_acl` per compiled initial ACL (compiled with fresh caches). -/
def create_port_txn_ops (plugin : Plugin) (port : Port) : List TxnOp :=
  TxnOp.create_lport port.id (ovn_name port.network_id) ::
    ((_add_acls plugin port [] [] []).fst.map TxnOp.add_acl)

/-- The transactional part of `create_port_in_ovn`: commit the unit of work;
on rejection the caller's view of the backend is unchanged. -/
def create_port_commit (plugin : Plugin) (port : Port)
    (accept : TxnOp → Bool) (b : Backend) : Backend :=
  match transaction_commit b accept (create_port_txn_ops plugin port) with
  | some b2 => b2
  | none => b

/-- The cascading-refresh tail of `create_port_in_ovn` (src lines 672-677):
when the port has fixed IPs, refresh remote security groups for every group
it joined, excluding the new port itself. -/
def create_port_refresh_groups (port : Port) : List (String × List String) :=
  if port.fixed_ips.isEmpty then []
  else port.security_groups.map (fun sg_id => (sg_id, [port.id]))

inductive OvnError where
  | notFound
deriving DecidableEq

/-- Modelled from the spec: the backend client's `delete_lswitch` with its
`if_exists` flag — deleting a present switch removes it and cascades its
ports and ACLs; deleting an absent switch succeeds when `if_exists` is set
and errors otherwise. -/
def delete_lswitch (name : String) (if_exists : Bool) (b : Backend) :
    Except OvnError Backend :=
  if b.lswitches.contains name then
    .ok { lswitches := b.lswitches.filter (fun s => s != name)
          lports := b.lports.filter (fun p => p.snd != name)
          acls := b.acls.filter (fun a => a.lswitch != name) }
  else if if_exists then .ok b
  else .error .notFound

/-- `OVNMechanismDriver.delete_network_postcommit` (src lines 290-305):
delete the logical switch of the network, passing `if_exists=True`. -/
def delete_network_postcommit (network_id : String) (b : Backend) :
    Except OvnError Backend :=
  delete_lswitch (ovn_name network_id) true b

/-- The set of security-group ids `_update_port_in_ovn` (src lines 750-777)
passes to `_refresh_remote_security_group` after its transaction: nothing
when neither the old nor the new port has fixed IPs; otherwise the groups
attached or detached by the update, plus — only when the fixed IPs changed —
the groups the port stays in. -/
def update_port_refresh_groups (original_port port : Port) : List String :=
  let old_sg_ids := dedup original_port.security_groups
  let new_sg_ids := dedup port.security_groups
  let detached := old_sg_ids.filter (fun g => !(new_sg_ids.contains g))
  let attached := new_sg_ids.filter (fun g => !(old_sg_ids.contains g))
  if port.fixed_ips.isEmpty && original_port.fixed_ips.isEmpty then []
  else
    let symdiff := attached ++ detached
    if original_port.fixed_ips != port.fixed_ips then
      symdiff ++ new_sg_ids.filter (fun g => old_sg_ids.contains g)
    else symdiff

/-- The result of `_update_port_in_ovn` (src lines 719-777): the single
transaction's operations (wholesale `set_lport`, delete of all prior ACLs,
re-add of the freshly compiled set) and the remote-group refreshes issued
afterwards, each excluding the updated port itself. -/
structure UpdatePortResult where
  txn_ops : List TxnOp
  refreshes : List (String × List String)
deriving DecidableEq

/-- `OVNMechanismDriver._update_port_in_ovn` (src lines 719-777). -/
def _update_port_in_ovn (plugin : Plugin) (original_port port : Port) :
    UpdatePortResult :=
  { txn_ops := TxnOp.set_lport port.id ::
      TxnOp.delete_acl (ovn_name port.network_id) port.id ::
      ((_add_acls plugin port [] [] []).fst.map TxnOp.add_acl)
    refreshes := (update_port_refresh_groups original_port port).map
      (fun g => (g, [port.id])) }

/-- The accumulating `addresses` string of
`_get_allowed_addresses_from_port` / `get_ovn_port_options`: the port's MAC
followed by each fixed IP (src lines 413-415 and 450-452). -/
def base_addresses (port : Port) : String :=
  port.fixed_ips.foldl (fun s ip => s ++ " " ++ ip.ip_address)
    port.mac_address

/-- Python `set.add`: insert unless already present. -/
def set_insert (l : List String) (x : String) : List String :=
  if l.contains x then l else l ++ [x]

/-- The loop over `allowed_address_pairs` (src lines 417-426): a pair with
the port's own MAC extends the accumulated `addresses` string; any other
pair becomes its own `"mac ip"` entry in the set. -/
def pair_scan (port_mac : String) :
    List AddressPair → String → List String → String × List String
  | [], addresses, entries => (addresses, entries)
  | ap :: rest, addresses, entries =>
    if ap.mac_address == port_mac then
      pair_scan port_mac rest (addresses ++ " " ++ ap.ip_address) entries
    else
      pair_scan port_mac rest addresses
        (set_insert entries (ap.mac_address ++ " " ++ ap.ip_address))

/-- `OVNMechanismDriver._get_allowed_addresses_from_port` (src lines
408-430). -/
def _get_allowed_addresses_from_port (port : Port) : List String :=
  if !port.port_security_enabled then []
  else
    let scan := pair_scan port.mac_address port.allowed_address_pairs
      (base_addresses port) []
    set_insert scan.snd scan.fst

/-- The single merged entry the port's own MAC contributes to the
port-security list: MAC, fixed IPs, then the IPs of every allowed-address
pair sharing that MAC, in pair order. -/
def merged_entry (port : Port) : String :=
  (port.allowed_address_pairs.filter
      (fun ap => ap.mac_address == port.mac_address)).foldl
    (fun s ap => s ++ " " ++ ap.ip_address) (base_addresses port)

/-- The vendor-specific binding profile fields this driver reads. -/
structure BindingProfile where
  vtep_physical_switch : Option String
  vtep_logical_switch : Option String
  parent_name : Option String
  tag : Option Nat
deriving DecidableEq

/-- The `OvnPortInfo` named tuple. -/
structure OvnPortInfo where
  type : Option String
  options : Option (List (String × Option String))
  addresses : List String
  port_security : List String
  parent_name : Option String
  tag : Option Nat
deriving DecidableEq

/-- `OVNMechanismDriver.get_ovn_port_options` (src lines 432-456). -/
def get_ovn_port_options (binding_profile : BindingProfile) (port : Port) :
    OvnPortInfo :=
  match binding_profile.vtep_physical_switch with
  | some vps =>
    { type := some "vtep"
      options := some [("vtep_physical_switch", some vps),
        ("vtep_logical_switch", binding_profile.vtep_logical_switch)]
      addresses := ["unknown"]
      port_security := []
      parent_name := none
      tag := none }
  | none =>
    { type := none
      options := none
      addresses := [base_addresses port]
      port_security := _get_allowed_addresses_from_port port
      parent_name := binding_profile.parent_name
      tag := binding_profile.tag }

/-!
Direct (cache-free) forms of the compiler.  Each mirrors the corresponding
cached function but reads the policy store directly; the lemmas below show
the cached functions compute the same values whenever their caches are
consistent with the store, making the compiled set a pure function of
(port, subnets, rules, membership).
-/

/-- Cache-free form of `remote_fixed_ip_addrs`. -/
def remote_fixed_ip_addrsD (plugin : Plugin) (ip_version : Nat)
    (src_or_dst : String) : List FixedIp → List String
  | [] => []
  | ip :: rest =>
    let tail := remote_fixed_ip_addrsD plugin ip_version src_or_dst rest
    if (plugin.get_subnet ip.subnet_id).ip_version == ip_version then
      ("ip" ++ toString ip_version ++ "." ++ src_or_dst ++ " == " ++
        ip.ip_address) :: tail
    else tail

/-- Cache-free form of `remote_port_addrs`. -/
def remote_port_addrsD (plugin : Plugin) (ip_version : Nat)
    (src_or_dst : String) : List Port → List String
  | [] => []
  | p :: rest =>
    remote_fixed_ip_addrsD plugin ip_version src_or_dst p.fixed_ips ++
      remote_port_addrsD plugin ip_version src_or_dst rest

/-- Cache-free form of `acl_remote_match_ip`. -/
def acl_remote_match_ipD (plugin : Plugin) (sg_ports : List String)
    (ip_version : Nat) (src_or_dst : String) : String :=
  let addrs := remote_port_addrsD plugin ip_version src_or_dst
    (plugin.ports.filter (fun p => sg_ports.contains p.id))
  if addrs.isEmpty then ""
  else " && (" ++ String.intercalate " || " addrs ++ ")"

/-- Cache-free form of `_acl_remote_group_id`. -/
def _acl_remote_group_idD (plugin : Plugin) (r : SGRule) (port : Port)
    (ip_version : Nat) : String × Bool :=
  match r.remote_group_id with
  | none => ("", false)
  | some rg =>
    let sg_ports := (plugin.get_ports_in_group rg).filter
      (fun pid => pid != port.id)
    if sg_ports.isEmpty then ("", true)
    else
      let src_or_dst := match r.direction with
        | .ingress => "src"
        | .egress => "dst"
      (acl_remote_match_ipD plugin sg_ports ip_version src_or_dst, false)

/-- Cache-free form of `_add_sg_rule_acl_for_port`. -/
def _add_sg_rule_acl_for_portD (plugin : Plugin) (port : Port) (r : SGRule) :
    Option ACL :=
  let dm := acl_direction r port
  let et := acl_ethertype r
  let m := dm.fst ++ et.fst ++ acl_remote_ip_pfx r et.snd.fst
  let gr := _acl_remote_group_idD plugin r port et.snd.fst
  if gr.snd then none
  else
    some (add_sg_rule_acl_for_port port r
      (m ++ gr.fst ++ acl_protocol_and_ports r et.snd.snd))

/-- Cache-free form of `dhcp_acls`. -/
def dhcp_aclsD (plugin : Plugin) (port : Port) : List FixedIp → List ACL
  | [] => []
  | ip :: rest =>
    let tail := dhcp_aclsD plugin port rest
    if (plugin.get_subnet ip.subnet_id).ip_version != 4 then tail
    else add_acl_dhcp port (plugin.get_subnet ip.subnet_id) ++ tail

/-- Cache-free form of `add_rule_acls`. -/
def add_rule_aclsD (plugin : Plugin) (port : Port) :
    List SGRule → List ACL → List ACL
  | [], acc => acc
  | r :: rest, acc =>
    let acc := match _add_sg_rule_acl_for_portD plugin port r with
      | some acl => if acc.contains acl then acc else acc ++ [acl]
      | none => acc
    add_rule_aclsD plugin port rest acc

/-- Cache-free form of `add_group_acls`. -/
def add_group_aclsD (plugin : Plugin) (port : Port) :
    List String → List ACL → List ACL
  | [], acc => acc
  | sg_id :: rest, acc =>
    add_group_aclsD plugin port rest
      (add_rule_aclsD plugin port
        (plugin.get_security_group sg_id).security_group_rules acc)

/-- Cache-free form of `_add_acls`: the compiled ACL set as a pure function
of the port and the policy store. -/
def _add_aclsD (plugin : Plugin) (port : Port) : List ACL :=
  if port.security_groups.isEmpty then []
  else
    add_group_aclsD plugin port port.security_groups
      (drop_all_ip_traffic_for_port port ++
        dhcp_aclsD plugin port port.fixed_ips)

/-- A cache is consistent with the store when every populated entry holds
exactly what the corresponding query returns (§3: an entry, once populated
within a pass, is never invalidated mid-pass). -/
def CacheConsistent {α : Type} (fetch : String → α) (c : Cache α) : Prop :=
  ∀ kv ∈ c, kv.snd = fetch kv.fst

/-!
Concrete fixtures: a small policy store used to instantiate the theorems
below on explicit inputs (the spec's §8 scenario — port `P1`, network `N1`,
group `G1` with one ingress-TCP/80 rule — plus variants for remote-group and
port-security cases).
-/

def subW : Subnet := { id := "s1", cidr := "10.0.0.0/24", ip_version := 4 }

def ruleTcp80W : SGRule :=
  { id := "r1", security_group_id := "G1", direction := .ingress,
    ethertype := .ipv4, protocol := some "tcp", port_range_min := some 80,
    port_range_max := some 80, remote_ip_pfx := none,
    remote_group_id := none }

def ruleRemoteW : SGRule :=
  { id := "r2", security_group_id := "G1", direction := .ingress,
    ethertype := .ipv4, protocol := none, port_range_min := none,
    port_range_max := none, remote_ip_pfx := none,
    remote_group_id := some "G2" }

def portW : Port :=
  { id := "P1", network_id := "N1", name := "port1",
    mac_address := "aa:bb:cc:00:00:01",
    fixed_ips := [{ subnet_id := "s1", ip_address := "10.0.0.5" }],
    security_groups := ["G1"], port_security_enabled := true,
    allowed_address_pairs := [], admin_state_up := true }

def pluginW : Plugin :=
  { ports := [portW]
    get_subnet := fun _ => subW
    get_security_group := fun i =>
      if i == "G1" then { id := "G1", security_group_rules := [ruleTcp80W] }
      else { id := i, security_group_rules := [] }
    get_ports_in_group := fun i => if i == "G1" then ["P1"] else []
    groups_with_rules_referencing := fun _ => [] }

/-- Store for the targeted-rule scenario: `G1` holds `P1` and the rule
`ruleRemoteW` referencing `G2`, which has no member ports. -/
def plugin3W : Plugin :=
  { pluginW with
      get_security_group := fun i =>
        { id := i, security_group_rules := [ruleRemoteW] }
      get_ports_in_group := fun i => if i == "G1" then ["P1"] else [] }

/-- Store for the cascade scenario: group `GB` (ports `P2`, `P3`, `P1`) has
a rule referencing `GA` as its remote group. -/
def plugin4W : Plugin :=
  { ports := [portW, { portW with id := "P2" }, { portW with id := "P3" }]
    get_subnet := fun _ => subW
    get_security_group := fun i => { id := i, security_group_rules := [] }
    get_ports_in_group := fun i =>
      if i == "GB" then ["P2", "P3", "P1"] else []
    groups_with_rules_referencing := fun i =>
      if i == "GA" then ["GB"] else [] }

/-- Port with two fixed IPs on the same IPv4 subnet. -/
def port7W : Port :=
  { portW with fixed_ips :=
      [{ subnet_id := "s1", ip_address := "10.0.0.5" },
       { subnet_id := "s1", ip_address := "10.0.0.6" }] }

/-- Pre-update port of the no-fixed-IP update scenario: attached to `SGA`. -/
def portOldW : Port :=
  { portW with fixed_ips := [], security_groups := ["SGA"] }

/-- Post-update port of the no-fixed-IP update scenario: detached from
`SGA`. -/
def portNewW : Port :=
  { portW with fixed_ips := [], security_groups := [] }

/-- Port with one same-MAC and one different-MAC allowed-address pair. -/
def portPairsW : Port :=
  { portW with allowed_address_pairs :=
      [{ mac_address := "aa:bb:cc:00:00:01", ip_address := "10.0.0.99" },
       { mac_address := "de:ad:be:ef:00:01", ip_address := "10.0.0.50" }] }

/-- Port with port security disabled. -/
def portPsecOffW : Port := { portW with port_security_enabled := false }

/-- A vtep binding profile. -/
def bpVtepW : BindingProfile :=
  { vtep_physical_switch := some "vsw", vtep_logical_switch := some "vls",
    parent_name := none, tag := none }

/-- An acceptance function rejecting every `add_acl` operation. -/
def rejectAclOpsW : TxnOp → Bool := fun op =>
  match op with
  | .add_acl _ => false
  | _ => true

/-- A backend holding the switch of network `N1` and nothing else. -/
def backendW : Backend :=
  { lswitches := ["neutron-N1"], lports := [], acls := [] }

/-- The (direction, match) key of the DHCP allow entry of `port7W`. -/
def dhcpMatchW : String :=
  "outport == P1 && ip4 && ip4.src == 10.0.0.0/24 && udp && udp.src == 67 && udp.dst == 68"

/-! Basic lemmas. -/

theorem mem_dedup {a : String} : ∀ {l : List String}, a ∈ dedup l ↔ a ∈ l := by
  intro l
  induction l with
  | nil => simp [dedup]
  | cons x xs ih =>
    simp only [dedup, List.mem_cons]
    cases hx : (dedup xs).contains x with
    | true =>
      simp only [hx, if_true, ih]
      constructor
      · intro h; exact Or.inr h
      · intro h
        rcases h with h | h
        · subst h
          have : a ∈ dedup xs := by simpa using hx
          exact ih.mp this
        · exact h
    | false => simp [hx, ih]

theorem cache_fetch_fst {α : Type} (fetch : String → α) (c : Cache α)
    (k : String) (h : CacheConsistent fetch c) :
    (cache_fetch fetch c k).fst = fetch k := by
  unfold cache_fetch
  cases hf : c.find? (fun kv => kv.fst == k) with
  | none => rfl
  | some kv =>
    have hm : kv ∈ c := List.mem_of_find?_eq_some hf
    have hk := List.find?_some hf
    have hk2 : kv.fst = k := by simpa using hk
    simp only [h kv hm, hk2]

theorem cache_fetch_snd_consistent {α : Type} (fetch : String → α)
    (c : Cache α) (k : String) (h : CacheConsistent fetch c) :
    CacheConsistent fetch (cache_fetch fetch c k).snd := by
  unfold cache_fetch
  cases hf : c.find? (fun kv => kv.fst == k) with
  | none =>
    intro kv hm
    rcases List.mem_cons.mp hm with hkv | hkv
    · subst hkv; rfl
    · exact h kv hkv
  | some kv => exact h

/-! Equivalence of the cached compiler with its cache-free form, under
cache consistency, together with preservation of consistency. -/

theorem remote_fixed_ip_addrs_spec (plugin : Plugin) (v : Nat) (s : String) :
    ∀ (ips : List FixedIp) (sc : Cache Subnet),
    CacheConsistent plugin.get_subnet sc →
    (remote_fixed_ip_addrs plugin v s ips sc).fst =
        remote_fixed_ip_addrsD plugin v s ips ∧
      CacheConsistent plugin.get_subnet
        (remote_fixed_ip_addrs plugin v s ips sc).snd := by
  intro ips
  induction ips with
  | nil => intro sc h; exact ⟨rfl, h⟩
  | cons ip rest ih =>
    intro sc h
    have hf := cache_fetch_fst plugin.get_subnet sc ip.subnet_id h
    have hc := cache_fetch_snd_consistent plugin.get_subnet sc ip.subnet_id h
    obtain ⟨ih1, ih2⟩ := ih _ hc
    simp only [remote_fixed_ip_addrs, remote_fixed_ip_addrsD]
    rw [hf]
    cases hv : ((plugin.get_subnet ip.subnet_id).ip_version == v) with
    | true =>
      rw [if_pos rfl, if_pos rfl]
      exact ⟨by rw [ih1], ih2⟩
    | false =>
      rw [if_neg (by simp), if_neg (by simp)]
      exact ⟨ih1, ih2⟩

theorem remote_port_addrs_spec (plugin : Plugin) (v : Nat) (s : String) :
    ∀ (ps : List Port) (sc : Cache Subnet),
    CacheConsistent plugin.get_subnet sc →
    (remote_port_addrs plugin v s ps sc).fst =
        remote_port_addrsD plugin v s ps ∧
      CacheConsistent plugin.get_subnet
        (remote_port_addrs plugin v s ps sc).snd := by
  intro ps
  induction ps with
  | nil => intro sc h; exact ⟨rfl, h⟩
  | cons p rest ih =>
    intro sc h
    obtain ⟨h1, h2⟩ := remote_fixed_ip_addrs_spec plugin v s p.fixed_ips sc h
    obtain ⟨ih1, ih2⟩ := ih _ h2
    simp only [remote_port_addrs, remote_port_addrsD]
    exact ⟨by rw [h1, ih1], ih2⟩

theorem acl_remote_match_ip_spec (plugin : Plugin) (sg_ports : List String)
    (sc : Cache Subnet) (v : Nat) (s : String)
    (h : CacheConsistent plugin.get_subnet sc) :
    (acl_remote_match_ip plugin sg_ports sc v s).fst =
        acl_remote_match_ipD plugin sg_ports v s ∧
      CacheConsistent plugin.get_subnet
        (acl_remote_match_ip plugin sg_ports sc v s).snd := by
  obtain ⟨h1, h2⟩ := remote_port_addrs_spec plugin v s
    (plugin.ports.filter (fun p => sg_ports.contains p.id)) sc h
  simp only [acl_remote_match_ip, acl_remote_match_ipD]
  rw [h1]
  cases he : (remote_port_addrsD plugin v s
      (plugin.ports.filter (fun p => sg_ports.contains p.id))).isEmpty with
  | true =>
    rw [if_pos rfl, if_pos rfl]
    exact ⟨rfl, h2⟩
  | false =>
    rw [if_neg (by simp), if_neg (by simp)]
    exact ⟨rfl, h2⟩

theorem _acl_remote_group_id_spec (plugin : Plugin) (r : SGRule)
    (spc : Cache (List String)) (sc : Cache Subnet) (port : Port) (v : Nat)
    (hp : CacheConsistent plugin.get_ports_in_group spc)
    (hs : CacheConsistent plugin.get_subnet sc) :
    (_acl_remote_group_id plugin r spc sc port v).fst =
        _acl_remote_group_idD plugin r port v ∧
      CacheConsistent plugin.get_ports_in_group
        (_acl_remote_group_id plugin r spc sc port v).snd.fst ∧
      CacheConsistent plugin.get_subnet
        (_acl_remote_group_id plugin r spc sc port v).snd.snd := by
  cases hr : r.remote_group_id with
  | none =>
    simp only [_acl_remote_group_id, _acl_remote_group_idD, hr]
    refine ⟨?_, hp, hs⟩
    trivial
  | some rg =>
    have hf := cache_fetch_fst plugin.get_ports_in_group spc rg hp
    have hc := cache_fetch_snd_consistent plugin.get_ports_in_group spc rg hp
    simp only [_acl_remote_group_id, _acl_remote_group_idD, hr]
    rw [hf]
    cases he : (((plugin.get_ports_in_group rg).filter
        (fun pid => pid != port.id)).isEmpty) with
    | true =>
      rw [if_pos rfl, if_pos rfl]
      exact ⟨rfl, hc, hs⟩
    | false =>
      rw [if_neg (by simp), if_neg (by simp)]
      obtain ⟨h1, h2⟩ := acl_remote_match_ip_spec plugin
        ((plugin.get_ports_in_group rg).filter (fun pid => pid != port.id))
        sc v (match r.direction with | .ingress => "src" | .egress => "dst") hs
      exact ⟨by rw [h1], hc, h2⟩

theorem _add_sg_rule_acl_for_port_spec (plugin : Plugin) (port : Port)
    (r : SGRule) (spc : Cache (List String)) (sc : Cache Subnet)
    (hp : CacheConsistent plugin.get_ports_in_group spc)
    (hs : CacheConsistent plugin.get_subnet sc) :
    (_add_sg_rule_acl_for_port plugin port r spc sc).fst =
        _add_sg_rule_acl_for_portD plugin port r ∧
      CacheConsistent plugin.get_ports_in_group
        (_add_sg_rule_acl_for_port plugin port r spc sc).snd.fst ∧
      CacheConsistent plugin.get_subnet
        (_add_sg_rule_acl_for_port plugin port r spc sc).snd.snd := by
  obtain ⟨h1, h2, h3⟩ := _acl_remote_group_id_spec plugin r spc sc port
    (acl_ethertype r).snd.fst hp hs
  simp only [_add_sg_rule_acl_for_port, _add_sg_rule_acl_for_portD]
  rw [h1]
  cases hb : (_acl_remote_group_idD plugin r port
      (acl_ethertype r).snd.fst).snd with
  | true =>
    rw [if_pos rfl, if_pos rfl]
    exact ⟨rfl, h2, h3⟩
  | false =>
    rw [if_neg (by simp), if_neg (by simp)]
    exact ⟨rfl, h2, h3⟩

theorem dhcp_acls_spec (plugin : Plugin) (port : Port) :
    ∀ (ips : List FixedIp) (sc : Cache Subnet),
    CacheConsistent plugin.get_subnet sc →
    (dhcp_acls plugin port ips sc).fst = dhcp_aclsD plugin port ips ∧
      CacheConsistent plugin.get_subnet (dhcp_acls plugin port ips sc).snd := by
  intro ips
  induction ips with
  | nil => intro sc h; exact ⟨rfl, h⟩
  | cons ip rest ih =>
    intro sc h
    have hf := cache_fetch_fst plugin.get_subnet sc ip.subnet_id h
    have hc := cache_fetch_snd_consistent plugin.get_subnet sc ip.subnet_id h
    obtain ⟨ih1, ih2⟩ := ih _ hc
    simp only [dhcp_acls, dhcp_aclsD]
    rw [hf]
    cases hv : ((plugin.get_subnet ip.subnet_id).ip_version != 4) with
    | true =>
      rw [if_pos rfl, if_pos rfl]
      exact ⟨ih1, ih2⟩
    | false =>
      rw [if_neg (by simp), if_neg (by simp)]
      exact ⟨by rw [ih1], ih2⟩

theorem add_rule_acls_spec (plugin : Plugin) (port : Port) :
    ∀ (rs : List SGRule) (acc : List ACL) (spc : Cache (List String))
      (sc : Cache Subnet),
    CacheConsistent plugin.get_ports_in_group spc →
    CacheConsistent plugin.get_subnet sc →
    (add_rule_acls plugin port rs acc spc sc).fst =
        add_rule_aclsD plugin port rs acc ∧
      CacheConsistent plugin.get_ports_in_group
        (add_rule_acls plugin port rs acc spc sc).snd.fst ∧
      CacheConsistent plugin.get_subnet
        (add_rule_acls plugin port rs acc spc sc).snd.snd := by
  intro rs
  induction rs with
  | nil => intro acc spc sc hp hs; exact ⟨rfl, hp, hs⟩
  | cons r rest ih =>
    intro acc spc sc hp hs
    obtain ⟨h1, h2, h3⟩ := _add_sg_rule_acl_for_port_spec plugin port r spc
      sc hp hs
    have := ih (match (_add_sg_rule_acl_for_port plugin port r spc sc).fst with
      | some acl => if acc.contains acl then acc else acc ++ [acl]
      | none => acc)
      (_add_sg_rule_acl_for_port plugin port r spc sc).snd.fst
      (_add_sg_rule_acl_for_port plugin port r spc sc).snd.snd h2 h3
    simp only [add_rule_acls, add_rule_aclsD]
    rw [h1] at this ⊢
    exact this

theorem add_group_acls_spec (plugin : Plugin) (port : Port) :
    ∀ (gs : List String) (acc : List ACL) (sgc : Cache SecurityGroup)
      (spc : Cache (List String)) (sc : Cache Subnet),
    CacheConsistent plugin.get_security_group sgc →
    CacheConsistent plugin.get_ports_in_group spc →
    CacheConsistent plugin.get_subnet sc →
    (add_group_acls plugin port gs acc sgc spc sc).fst =
        add_group_aclsD plugin port gs acc ∧
      CacheConsistent plugin.get_security_group
        (add_group_acls plugin port gs acc sgc spc sc).snd.fst ∧
      CacheConsistent plugin.get_ports_in_group
        (add_group_acls plugin port gs acc sgc spc sc).snd.snd.fst ∧
      CacheConsistent plugin.get_subnet
        (add_group_acls plugin port gs acc sgc spc sc).snd.snd.snd := by
  intro gs
  induction gs with
  | nil => intro acc sgc spc sc hg hp hs; exact ⟨rfl, hg, hp, hs⟩
  | cons g rest ih =>
    intro acc sgc spc sc hg hp hs
    have hf := cache_fetch_fst plugin.get_security_group sgc g hg
    have hgc := cache_fetch_snd_consistent plugin.get_security_group sgc g hg
    obtain ⟨h1, h2, h3⟩ := add_rule_acls_spec plugin port
      (cache_fetch plugin.get_security_group sgc g).fst.security_group_rules
      acc spc sc hp hs
    rw [hf] at h1 h2 h3
    simp only [add_group_acls, add_group_aclsD]
    rw [hf, h1]
    exact ih _ _ _ _ hgc h2 h3

theorem _add_acls_spec (plugin : Plugin) (port : Port)
    (sgc : Cache SecurityGroup) (spc : Cache (List String))
    (sc : Cache Subnet)
    (hg : CacheConsistent plugin.get_security_group sgc)
    (hp : CacheConsistent plugin.get_ports_in_group spc)
    (hs : CacheConsistent plugin.get_subnet sc) :
    (_add_acls plugin port sgc spc sc).fst = _add_aclsD plugin port ∧
      CacheConsistent plugin.get_security_group
        (_add_acls plugin port sgc spc sc).snd.fst ∧
      CacheConsistent plugin.get_ports_in_group
        (_add_acls plugin port sgc spc sc).snd.snd.fst ∧
      CacheConsistent plugin.get_subnet
        (_add_acls plugin port sgc spc sc).snd.snd.snd := by
  cases he : port.security_groups.isEmpty with
  | true =>
    simp only [_add_acls, _add_aclsD]
    rw [if_pos he, if_pos he]
    exact ⟨rfl, hg, hp, hs⟩
  | false =>
    obtain ⟨h1, h2⟩ := dhcp_acls_spec plugin port port.fixed_ips sc hs
    have hmain := add_group_acls_spec plugin port port.security_groups
      (drop_all_ip_traffic_for_port port ++
        (dhcp_acls plugin port port.fixed_ips sc).fst)
      sgc spc (dhcp_acls plugin port port.fixed_ips sc).snd hg hp h2
    simp only [_add_acls, _add_aclsD]
    rw [if_neg (by simp [he]), if_neg (by simp [he]), ← h1]
    exact hmain

/-! The rule and group loops only ever append to the accumulated list. -/

theorem add_rule_acls_append (plugin : Plugin) (port : Port) :
    ∀ (rs : List SGRule) (acc : List ACL) (spc : Cache (List String))
      (sc : Cache Subnet),
    ∃ t, (add_rule_acls plugin port rs acc spc sc).fst = acc ++ t := by
  intro rs
  induction rs with
  | nil => intro acc spc sc; exact ⟨[], by simp [add_rule_acls]⟩
  | cons r rest ih =>
    intro acc spc sc
    simp only [add_rule_acls]
    split
    next acl hA =>
      cases hc : acc.contains acl with
      | true =>
        rw [if_pos rfl]
        exact ih acc _ _
      | false =>
        rw [if_neg (by simp)]
        obtain ⟨t, ht⟩ := ih (acc ++ [acl]) _ _
        exact ⟨[acl] ++ t, by rw [ht, List.append_assoc]⟩
    next hA => exact ih acc _ _

theorem add_group_acls_append (plugin : Plugin) (port : Port) :
    ∀ (gs : List String) (acc : List ACL) (sgc : Cache SecurityGroup)
      (spc : Cache (List String)) (sc : Cache Subnet),
    ∃ t, (add_group_acls plugin port gs acc sgc spc sc).fst = acc ++ t := by
  intro gs
  induction gs with
  | nil => intro acc sgc spc sc; exact ⟨[], by simp [add_group_acls]⟩
  | cons g rest ih =>
    intro acc sgc spc sc
    simp only [add_group_acls]
    obtain ⟨t1, h1⟩ := add_rule_acls_append plugin port
      (cache_fetch plugin.get_security_group sgc g).fst.security_group_rules
      acc spc sc
    obtain ⟨t2, h2⟩ := ih (add_rule_acls plugin port
      (cache_fetch plugin.get_security_group sgc g).fst.security_group_rules
      acc spc sc).fst _ _ _
    exact ⟨t1 ++ t2, by rw [h2, h1, List.append_assoc]⟩

/-- **C1.**  For every port with at least one attached security group, the
full per-port compile `_add_acls` returns a set containing both the
drop-all-ingress and the drop-all-egress entry, whatever rules the attached
groups hold; for every port with no attached group it returns the empty
set. -/
theorem C1_default_deny (plugin : Plugin) (port : Port)
    (sgc : Cache SecurityGroup) (spc : Cache (List String))
    (sc : Cache Subnet) :
    (port.security_groups = [] →
      (_add_acls plugin port sgc spc sc).fst = []) ∧
    (port.security_groups ≠ [] →
      drop_ingress_acl port ∈ (_add_acls plugin port sgc spc sc).fst ∧
        drop_egress_acl port ∈ (_add_acls plugin port sgc spc sc).fst) := by
  constructor
  · intro h
    simp [_add_acls, h]
  · intro h
    have he : port.security_groups.isEmpty = false := by
      simpa [List.isEmpty_iff] using h
    simp only [_add_acls]
    rw [if_neg (by simp [he])]
    obtain ⟨t, ht⟩ := add_group_acls_append plugin port port.security_groups
      (drop_all_ip_traffic_for_port port ++
        (dhcp_acls plugin port port.fixed_ips sc).fst)
      sgc spc (dhcp_acls plugin port port.fixed_ips sc).snd
    rw [ht]
    constructor
    · simp [drop_all_ip_traffic_for_port]
    · simp [drop_all_ip_traffic_for_port]

/-- Witness for C1 at the spec's §8 scenario port. -/
theorem C1_default_deny_witness :
    (_add_acls pluginW { portW with security_groups := [] } [] [] []).fst
        = [] ∧
      drop_ingress_acl portW ∈ (_add_acls pluginW portW [] [] []).fst ∧
      drop_egress_acl portW ∈ (_add_acls pluginW portW [] [] []).fst := by
  refine ⟨(C1_default_deny pluginW _ [] [] []).1 rfl, ?_⟩
  exact (C1_default_deny pluginW portW [] [] []).2 (by decide)

/-- **C2.**  In the per-port compile, a rule carrying a remote-group id has
that group's members resolved with the compiled port itself excluded; if
the resulting peer set is empty the rule compiles to no ACL (`none`) and
contributes nothing to the accumulated ACL list — no error is raised
(`_add_sg_rule_acl_for_port` is total). -/
theorem C2_empty_remote_group (plugin : Plugin) (port : Port) (r : SGRule)
    (spc : Cache (List String)) (sc : Cache Subnet) (rg : String)
    (hrg : r.remote_group_id = some rg)
    (hempty : (cache_fetch plugin.get_ports_in_group spc rg).fst.filter
        (fun pid => pid != port.id) = []) :
    (_add_sg_rule_acl_for_port plugin port r spc sc).fst = none ∧
    ∀ acc : List ACL,
      (add_rule_acls plugin port [r] acc spc sc).fst = acc := by
  have hmain : (_add_sg_rule_acl_for_port plugin port r spc sc).fst = none := by
    simp only [_add_sg_rule_acl_for_port, _acl_remote_group_id, hrg, hempty]
    simp
  refine ⟨hmain, ?_⟩
  intro acc
  simp only [add_rule_acls, hmain]

/-- Witness for C2: group `G1`'s only member is the compiled port itself,
so the peer set excluding the port is empty and the rule yields no ACL. -/
theorem C2_empty_remote_group_witness :
    ({ ruleRemoteW with remote_group_id := some "G1" } : SGRule
        ).remote_group_id = some "G1" ∧
      (cache_fetch plugin3W.get_ports_in_group [] "G1").fst.filter
        (fun pid => pid != portW.id) = [] ∧
      (_add_sg_rule_acl_for_port plugin3W portW
        { ruleRemoteW with remote_group_id := some "G1" } [] []).fst
        = none := by
  refine ⟨rfl, rfl, ?_⟩
  exact (C2_empty_remote_group plugin3W portW
    { ruleRemoteW with remote_group_id := some "G1" } [] [] "G1" rfl rfl).1

/-- **C3.**  The targeted single-rule update path crashes instead of
producing zero ACLs: with group `G1` containing port `P1` and the rule
referencing remote group `G2` whose peer set (excluding `P1`) is empty, the
per-port compile returns `None` and `_update_acls_for_security_group`'s
unconditional `acl.pop('lport')` raises an `AttributeError`. -/
theorem C3_targeted_rule_crash :
    _update_acls_for_security_group plugin3W "G1" [] [] [] []
      (some ruleRemoteW) false = .error .attributeError := rfl

/-- After removing every element equal to `n`, a list no longer contains
`n`. -/
theorem contains_filter_ne (l : List String) (n : String) :
    (l.filter (fun s => s != n)).contains n = false := by
  rw [Bool.eq_false_iff]
  intro hc
  simp [List.contains_iff_exists_mem_beq] at hc

/-- **C9.**  Network delete is idempotent with respect to backend absence:
`delete_network_postcommit` always succeeds and leaves the logical switch
absent, and when the switch is already gone the call succeeds with the
backend unchanged. -/
theorem C9_idempotent_network_delete (b : Backend) (network_id : String) :
    (∃ b2, delete_network_postcommit network_id b = .ok b2 ∧
        b2.lswitches.contains (ovn_name network_id) = false) ∧
    (b.lswitches.contains (ovn_name network_id) = false →
      delete_network_postcommit network_id b = .ok b) := by
  simp only [delete_network_postcommit, delete_lswitch]
  cases hc : b.lswitches.contains (ovn_name network_id) with
  | true =>
    rw [if_pos rfl]
    constructor
    · exact ⟨_, rfl, contains_filter_ne _ _⟩
    · intro h
      cases h
  | false =>
    rw [if_neg (by simp), if_pos trivial]
    exact ⟨⟨b, rfl, hc⟩, fun _ => rfl⟩

/-- Witness for C9: deleting network `N1` whose switch is absent from the
empty backend succeeds unchanged. -/
theorem C9_idempotent_network_delete_witness :
    ({ lswitches := [], lports := [], acls := [] } : Backend
        ).lswitches.contains (ovn_name "N1") = false ∧
      delete_network_postcommit "N1"
        { lswitches := [], lports := [], acls := [] } =
        .ok { lswitches := [], lports := [], acls := [] } := by
  refine ⟨rfl, ?_⟩
  exact (C9_idempotent_network_delete
    { lswitches := [], lports := [], acls := [] } "N1").2 rfl

/-- **C8.**  On port create, the logical-port creation and every compiled
initial ACL addition are operations of the one transaction built by
`create_port_in_ovn`; if the backend rejects any of its operations, the
whole unit is discarded and the backend state is unchanged — the logical
port is never observable without its initial ACL set, nor vice versa. -/
theorem C8_create_port_atomicity (plugin : Plugin) (port : Port)
    (accept : TxnOp → Bool) (b : Backend) :
    TxnOp.create_lport port.id (ovn_name port.network_id) ∈
        create_port_txn_ops plugin port ∧
    (∀ a ∈ (_add_acls plugin port [] [] []).fst,
        TxnOp.add_acl a ∈ create_port_txn_ops plugin port) ∧
    ((∃ op ∈ create_port_txn_ops plugin port, accept op = false) →
      create_port_commit plugin port accept b = b) := by
  refine ⟨List.mem_cons_self _ _, ?_, ?_⟩
  · intro a ha
    exact List.mem_cons_of_mem _ (List.mem_map_of_mem TxnOp.add_acl ha)
  · rintro ⟨op, hop, hrej⟩
    simp only [create_port_commit, transaction_commit]
    cases hall : (create_port_txn_ops plugin port).all accept with
    | true =>
      have := (List.all_eq_true.mp hall) op hop
      rw [hrej] at this
      cases this
    | false =>
      rw [if_neg (by simp)]

/-- Witness for C8: with an acceptance function rejecting ACL additions,
creating port `P1` leaves the backend holding only its switch unchanged. -/
theorem C8_create_port_atomicity_witness :
    (∃ op ∈ create_port_txn_ops pluginW portW, rejectAclOpsW op = false) ∧
      create_port_commit pluginW portW rejectAclOpsW backendW = backendW := by
  have hx : ∃ op ∈ create_port_txn_ops pluginW portW,
      rejectAclOpsW op = false := by decide
  exact ⟨hx,
    (C8_create_port_atomicity pluginW portW rejectAclOpsW backendW).2.2 hx⟩

/-- Membership characterization of the refresh set computed by
`_update_port_in_ovn`. -/
theorem mem_update_port_refresh_groups (o n : Port) (g : String) :
    g ∈ update_port_refresh_groups o n ↔
      ((o.fixed_ips ≠ [] ∨ n.fixed_ips ≠ []) ∧
        ((g ∈ n.security_groups ∧ g ∉ o.security_groups) ∨
         (g ∈ o.security_groups ∧ g ∉ n.security_groups) ∨
         (o.fixed_ips ≠ n.fixed_ips ∧
           g ∈ n.security_groups ∧ g ∈ o.security_groups))) := by
  simp only [update_port_refresh_groups]
  by_cases h1 : n.fixed_ips = [] <;> by_cases h2 : o.fixed_ips = [] <;>
    by_cases h3 : o.fixed_ips = n.fixed_ips <;>
    simp [h1, h2, h3, mem_dedup, List.mem_filter, List.mem_append]

/-- **C5 counterexample.**  A port update that detaches group `SGA` but
where neither the old nor the new port has any fixed IP performs no
cascading refresh at all, contradicting the claim that refresh is performed
for every group the port left. -/
theorem C5_counterexample :
    "SGA" ∈ portOldW.security_groups ∧
      "SGA" ∉ portNewW.security_groups ∧
      (_update_port_in_ovn pluginW portOldW portNewW).refreshes = [] := by
  refine ⟨by decide, by decide, rfl⟩

/-- **C5 (amended).**  After the in-transaction recompute, cascading
refresh is issued exactly for: the groups the port joined or left —
provided the port has or had at least one fixed IP (a port with no fixed
IPs before and after the update triggers no refresh) — plus, only when the
fixed IPs changed, the groups the port remains in; every refresh excludes
the updated port itself. -/
theorem C5_update_port_cascade (plugin : Plugin) (original_port port : Port)
    (g : String) :
    (g ∈ (_update_port_in_ovn plugin original_port port).refreshes.map
        Prod.fst ↔
      ((original_port.fixed_ips ≠ [] ∨ port.fixed_ips ≠ []) ∧
        ((g ∈ port.security_groups ∧ g ∉ original_port.security_groups) ∨
         (g ∈ original_port.security_groups ∧ g ∉ port.security_groups) ∨
         (original_port.fixed_ips ≠ port.fixed_ips ∧
           g ∈ port.security_groups ∧
           g ∈ original_port.security_groups)))) ∧
    ∀ x ∈ (_update_port_in_ovn plugin original_port port).refreshes,
      x.snd = [port.id] := by
  constructor
  · have hmap : (_update_port_in_ovn plugin original_port port).refreshes.map
        Prod.fst = update_port_refresh_groups original_port port := by
      simp only [_update_port_in_ovn]
      induction update_port_refresh_groups original_port port with
      | nil => rfl
      | cons a as ih => simp only [List.map_cons, ih]
    rw [hmap]
    exact mem_update_port_refresh_groups original_port port g
  · intro x hx
    simp only [_update_port_in_ovn, List.mem_map] at hx
    obtain ⟨a, _, ha⟩ := hx
    rw [← ha]

/-- Witness for C5: detaching `G1` from port `P1` (which has a fixed IP)
issues the `G1` refresh, excluding `P1` itself. -/
theorem C5_update_port_cascade_witness :
    ("G1", ["P1"]) ∈ (_update_port_in_ovn pluginW portW
        { portW with security_groups := [] }).refreshes ∧
      (("G1", ["P1"]) : String × List String).snd =
        [({ portW with security_groups := [] } : Port).id] := by
  refine ⟨by decide, ?_⟩
  exact (C5_update_port_cascade pluginW portW
    { portW with security_groups := [] } "G1").2 ("G1", ["P1"]) (by decide)

/-- `set_insert` adds exactly the given element. -/
theorem mem_set_insert (l : List String) (x e : String) :
    e ∈ set_insert l x ↔ e ∈ l ∨ e = x := by
  simp only [set_insert]
  cases hc : l.contains x with
  | true =>
    rw [if_pos rfl]
    constructor
    · exact Or.inl
    · rintro (h | h)
      · exact h
      · subst h
        simpa [List.contains_iff_exists_mem_beq] using hc
  | false =>
    rw [if_neg (by simp)]
    simp

/-- The accumulated-addresses component of the pair scan folds exactly the
same-MAC pairs onto the initial string. -/
theorem pair_scan_fst (m : String) :
    ∀ (ps : List AddressPair) (addr : String) (es : List String),
    (pair_scan m ps addr es).fst =
      (ps.filter (fun ap => ap.mac_address == m)).foldl
        (fun s ap => s ++ " " ++ ap.ip_address) addr := by
  intro ps
  induction ps with
  | nil => intro addr es; rfl
  | cons ap rest ih =>
    intro addr es
    simp only [pair_scan, List.filter_cons]
    cases hm : ap.mac_address == m with
    | true =>
      rw [if_pos rfl, if_pos rfl, List.foldl_cons]
      exact ih _ _
    | false =>
      rw [if_neg (by simp), if_neg (by simp)]
      exact ih _ _

/-- The entry-set component of the pair scan holds exactly the initial
entries plus one `"mac ip"` entry per different-MAC pair. -/
theorem mem_pair_scan_snd (m : String) :
    ∀ (ps : List AddressPair) (addr : String) (es : List String) (e : String),
    e ∈ (pair_scan m ps addr es).snd ↔
      e ∈ es ∨ ∃ ap ∈ ps, (ap.mac_address == m) = false ∧
        e = ap.mac_address ++ " " ++ ap.ip_address := by
  intro ps
  induction ps with
  | nil => intro addr es e; simp [pair_scan]
  | cons ap rest ih =>
    intro addr es e
    simp only [pair_scan]
    cases hm : ap.mac_address == m with
    | true =>
      rw [if_pos rfl, ih]
      have hm2 : ap.mac_address = m := by simpa using hm
      simp [hm2]
    | false =>
      rw [if_neg (by simp), ih, mem_set_insert]
      simp only [hm, List.mem_cons]
      constructor
      · rintro (((h | h) | h))
        · exact Or.inl h
        · exact Or.inr ⟨ap, Or.inl rfl, hm, h⟩
        · obtain ⟨a, ha, hf, he⟩ := h
          exact Or.inr ⟨a, Or.inr ha, hf, he⟩
      · rintro (h | ⟨a, (ha | ha), hf, he⟩)
        · exact Or.inl (Or.inl h)
        · subst ha; exact Or.inl (Or.inr he)
        · exact Or.inr ⟨a, ha, hf, he⟩

/-- **C10.**  The computed logical-port security attributes satisfy: with
port security disabled the allowed-address list is empty; with it enabled,
an entry is either the single merged MAC-plus-fixed-IPs-plus-same-MAC-pair
entry or the own `"mac ip"` entry of a pair whose MAC differs from the
port's; and a vtep port gets addresses `["unknown"]` with an empty
port-security list regardless of its fixed IPs. -/
theorem C10_port_security_attrs (bp : BindingProfile) (port : Port) :
    (port.port_security_enabled = false →
      _get_allowed_addresses_from_port port = []) ∧
    (port.port_security_enabled = true →
      ∀ e, e ∈ _get_allowed_addresses_from_port port ↔
        (e = merged_entry port ∨
          ∃ ap ∈ port.allowed_address_pairs,
            ap.mac_address ≠ port.mac_address ∧
            e = ap.mac_address ++ " " ++ ap.ip_address)) ∧
    (∀ vps, bp.vtep_physical_switch = some vps →
      (get_ovn_port_options bp port).addresses = ["unknown"] ∧
      (get_ovn_port_options bp port).port_security = []) := by
  refine ⟨?_, ?_, ?_⟩
  · intro h
    simp [_get_allowed_addresses_from_port, h]
  · intro h e
    simp only [_get_allowed_addresses_from_port, h]
    rw [if_neg (by simp)]
    rw [mem_set_insert, mem_pair_scan_snd, pair_scan_fst]
    simp only [List.not_mem_nil, false_or, merged_entry]
    rw [or_comm]
    constructor
    · rintro (h2 | h2)
      · exact Or.inl h2
      · obtain ⟨a, ha, hf, he⟩ := h2
        exact Or.inr ⟨a, ha, by simpa using hf, he⟩
    · rintro (h2 | h2)
      · exact Or.inl h2
      · obtain ⟨a, ha, hf, he⟩ := h2
        exact Or.inr ⟨a, ha, by simpa using hf, he⟩
  · intro vps h
    simp [get_ovn_port_options, h]

/-- Witness for C10: port-security-off port yields `[]`; the
different-MAC pair of `portPairsW` forms its own entry; a vtep binding
yields addresses `["unknown"]` and empty port security. -/
theorem C10_port_security_attrs_witness :
    _get_allowed_addresses_from_port portPsecOffW = [] ∧
      ("de:ad:be:ef:00:01 10.0.0.50" ∈
        _get_allowed_addresses_from_port portPairsW) ∧
      (get_ovn_port_options bpVtepW portPairsW).addresses = ["unknown"] ∧
      (get_ovn_port_options bpVtepW portPairsW).port_security = [] := by
  have h1 := (C10_port_security_attrs bpVtepW portPsecOffW).1 rfl
  have h2 := ((C10_port_security_attrs bpVtepW portPairsW).2.1 rfl
    "de:ad:be:ef:00:01 10.0.0.50").mpr
    (Or.inr ⟨{ mac_address := "de:ad:be:ef:00:01",
               ip_address := "10.0.0.50" }, by decide, by decide, rfl⟩)
  have h3 := (C10_port_security_attrs bpVtepW portPairsW).2.2 "vsw" rfl
  exact ⟨h1, h2, h3.1, h3.2⟩

/-- Two ACL records are equal when all their fields are. -/
theorem acl_eq_of_fields (a b : ACL) (h1 : a.lswitch = b.lswitch)
    (h2 : a.lport = b.lport) (h3 : a.priority = b.priority)
    (h4 : a.action = b.action) (h5 : a.direction = b.direction)
    (h6 : a.acl_match = b.acl_match) : a = b := by
  cases a
  cases b
  simp_all

/-- Every ACL the per-rule compiler emits carries the allow-related action,
the rule priority and the compiled port's correlation ids. -/
theorem _add_sg_rule_acl_fields (plugin : Plugin) (port : Port) (r : SGRule)
    (spc : Cache (List String)) (sc : Cache Subnet) (a : ACL)
    (h : (_add_sg_rule_acl_for_port plugin port r spc sc).fst = some a) :
    a.action = "allow-related" ∧ a.lswitch = ovn_name port.network_id ∧
      a.lport = port.id ∧ a.priority = ACL_PRIORITY_ALLOW := by
  simp only [_add_sg_rule_acl_for_port] at h
  split at h
  · simp at h
  · simp only [add_sg_rule_acl_for_port] at h
    have h2 := h
    simp at h2
    rw [← h2]
    exact ⟨rfl, rfl, rfl, rfl⟩

/-- A `contains = false` result means non-membership. -/
theorem not_mem_of_contains_false {a : ACL} {l : List ACL}
    (h : l.contains a = false) : a ∉ l := by
  intro hm
  rw [Bool.eq_false_iff] at h
  exact h (by simpa [List.contains_iff_exists_mem_beq] using hm)

/-- The rule loop appends a duplicate-free tail of rule-compiled ACLs, none
of which was already accumulated. -/
theorem add_rule_acls_tail (plugin : Plugin) (port : Port) :
    ∀ (rs : List SGRule) (acc : List ACL) (spc : Cache (List String))
      (sc : Cache Subnet),
    ∃ t, (add_rule_acls plugin port rs acc spc sc).fst = acc ++ t ∧
      t.Nodup ∧
      ∀ a ∈ t, a ∉ acc ∧ a.action = "allow-related" ∧
        a.lswitch = ovn_name port.network_id ∧ a.lport = port.id ∧
        a.priority = ACL_PRIORITY_ALLOW := by
  intro rs
  induction rs with
  | nil =>
    intro acc spc sc
    exact ⟨[], by simp [add_rule_acls], List.nodup_nil, by simp⟩
  | cons r rest ih =>
    intro acc spc sc
    simp only [add_rule_acls]
    split
    next acl hA =>
      have hP := _add_sg_rule_acl_fields plugin port r spc sc acl hA
      cases hc : acc.contains acl with
      | true =>
        rw [if_pos rfl]
        exact ih acc _ _
      | false =>
        rw [if_neg (by simp)]
        obtain ⟨t, ht, hnd, hall⟩ := ih (acc ++ [acl]) _ _
        refine ⟨acl :: t, ?_, ?_, ?_⟩
        · rw [ht, List.append_assoc]
          rfl
        · rw [List.nodup_cons]
          refine ⟨?_, hnd⟩
          intro hmem
          have := (hall acl hmem).1
          simp at this
        · intro a ha
          rcases List.mem_cons.mp ha with h | h
          · subst h
            exact ⟨not_mem_of_contains_false hc, hP⟩
          · have h2 := hall a h
            exact ⟨fun hmem => h2.1 (List.mem_append_left _ hmem), h2.2⟩
    next hA => exact ih acc _ _

/-- The group loop appends a duplicate-free tail of rule-compiled ACLs. -/
theorem add_group_acls_tail (plugin : Plugin) (port : Port) :
    ∀ (gs : List String) (acc : List ACL) (sgc : Cache SecurityGroup)
      (spc : Cache (List String)) (sc : Cache Subnet),
    ∃ t, (add_group_acls plugin port gs acc sgc spc sc).fst = acc ++ t ∧
      t.Nodup ∧
      ∀ a ∈ t, a ∉ acc ∧ a.action = "allow-related" ∧
        a.lswitch = ovn_name port.network_id ∧ a.lport = port.id ∧
        a.priority = ACL_PRIORITY_ALLOW := by
  intro gs
  induction gs with
  | nil =>
    intro acc sgc spc sc
    exact ⟨[], by simp [add_group_acls], List.nodup_nil, by simp⟩
  | cons g rest ih =>
    intro acc sgc spc sc
    simp only [add_group_acls]
    obtain ⟨t1, h1, hnd1, hall1⟩ := add_rule_acls_tail plugin port
      (cache_fetch plugin.get_security_group sgc g).fst.security_group_rules
      acc spc sc
    obtain ⟨t2, h2, hnd2, hall2⟩ := ih (add_rule_acls plugin port
      (cache_fetch plugin.get_security_group sgc g).fst.security_group_rules
      acc spc sc).fst _ _ _
    refine ⟨t1 ++ t2, ?_, ?_, ?_⟩
    · rw [h2, h1, List.append_assoc]
    · rw [List.nodup_append]
      refine ⟨hnd1, hnd2, fun a ha1 ha2 => ?_⟩
      have h3 := (hall2 a ha2).1
      rw [h1] at h3
      exact h3 (List.mem_append_right _ ha1)
    · intro a ha
      rcases List.mem_append.mp ha with h | h
      · exact hall1 a h
      · have h3 := hall2 a h
        rw [h1] at h3
        exact ⟨fun hm => h3.1 (List.mem_append_left _ hm), h3.2⟩

/-- Every DHCP-loop entry carries the plain allow action. -/
theorem dhcp_acls_action (plugin : Plugin) (port : Port) :
    ∀ (ips : List FixedIp) (sc : Cache Subnet) (a : ACL),
    a ∈ (dhcp_acls plugin port ips sc).fst → a.action = "allow" := by
  intro ips
  induction ips with
  | nil => intro sc a h; simp [dhcp_acls] at h
  | cons ip rest ih =>
    intro sc a h
    simp only [dhcp_acls] at h
    split at h
    · exact ih _ a h
    · rcases List.mem_append.mp h with h2 | h2
      · simp [add_acl_dhcp] at h2
        rw [h2]
      · exact ih _ a h2

/-- A duplicate-free list whose matching elements are pairwise equal has at
most one element surviving the filter. -/
theorem length_filter_le_one {α : Type} (p : α → Bool) :
    ∀ (l : List α), l.Nodup →
    (∀ a ∈ l, ∀ b ∈ l, p a = true → p b = true → a = b) →
    (l.filter p).length ≤ 1 := by
  intro l
  induction l with
  | nil => intro _ _; simp
  | cons x xs ih =>
    intro hnd huniq
    rw [List.filter_cons]
    cases hp : p x with
    | false =>
      rw [if_neg (by simp)]
      exact ih (List.nodup_cons.mp hnd).2
        (fun a ha b hb => huniq a (List.mem_cons_of_mem _ ha) b
          (List.mem_cons_of_mem _ hb))
    | true =>
      rw [if_pos rfl]
      have hnil : xs.filter p = [] := by
        rw [List.eq_nil_iff_forall_not_mem]
        intro a ha
        have hmem := List.mem_filter.mp ha
        have hax : a = x := huniq a (List.mem_cons_of_mem _ hmem.1) x
          (List.mem_cons_self _ _) hmem.2 hp
        subst hax
        exact (List.nodup_cons.mp hnd).1 hmem.1
      rw [hnil]
      simp

/-- **C7 counterexample.**  The full compile of a port with two fixed IPs
on the same IPv4 subnet contains the DHCP allow entry twice, so the
returned set does not hold at most one ACL per (direction, match) key. -/
theorem C7_counterexample :
    ¬ (∀ d m : String, ((_add_acls pluginW port7W [] [] []).fst.filter
        (fun a => a.direction == d && a.acl_match == m)).length ≤ 1) := by
  intro h
  have h2 := h "to-lport" dhcpMatchW
  have h3 : ((_add_acls pluginW port7W [] [] []).fst.filter
      (fun a => a.direction == "to-lport" &&
        a.acl_match == dhcpMatchW)).length = 2 := rfl
  rw [h3] at h2
  omega

/-- **C7 (amended).**  Among the rule-derived ACLs (action allow-related)
the full compile is deduplicated: at most one such ACL per
(direction, match) key survives, even when distinct rules compile to the
same direction and match; the default-drop pair and the DHCP allow entries
are appended without this dedup, and a port with two fixed IPs on one IPv4
subnet receives duplicate DHCP entries. -/
theorem C7_rule_acl_dedup (plugin : Plugin) (port : Port)
    (sgc : Cache SecurityGroup) (spc : Cache (List String))
    (sc : Cache Subnet) (d m : String) :
    ((_add_acls plugin port sgc spc sc).fst.filter
      (fun a => a.action == "allow-related" && a.direction == d &&
        a.acl_match == m)).length ≤ 1 := by
  cases he : port.security_groups.isEmpty with
  | true =>
    simp only [_add_acls]
    rw [if_pos he]
    simp
  | false =>
    simp only [_add_acls]
    rw [if_neg (by simp [he])]
    obtain ⟨t, ht, hnd, hall⟩ := add_group_acls_tail plugin port
      port.security_groups
      (drop_all_ip_traffic_for_port port ++
        (dhcp_acls plugin port port.fixed_ips sc).fst)
      sgc spc (dhcp_acls plugin port port.fixed_ips sc).snd
    rw [ht, List.filter_append]
    have hinit : (drop_all_ip_traffic_for_port port ++
        (dhcp_acls plugin port port.fixed_ips sc).fst).filter
        (fun a => a.action == "allow-related" && a.direction == d &&
          a.acl_match == m) = [] := by
      rw [List.filter_eq_nil_iff]
      intro a ha
      rcases List.mem_append.mp ha with h | h
      · simp only [drop_all_ip_traffic_for_port, drop_ingress_acl,
          drop_egress_acl, List.mem_cons] at h
        rcases h with h | h | h
        · subst h; simp
        · subst h; simp
        · simp at h
      · have h2 := dhcp_acls_action plugin port port.fixed_ips sc a h
        simp [h2]
    rw [hinit, List.nil_append]
    apply length_filter_le_one _ t hnd
    intro a ha b hb hpa hpb
    obtain ⟨_, hPa⟩ := hall a ha
    obtain ⟨_, hPb⟩ := hall b hb
    simp only [Bool.and_eq_true, beq_iff_eq] at hpa hpb
    exact acl_eq_of_fields a b (hPa.2.1.trans hPb.2.1.symm)
      (hPa.2.2.1.trans hPb.2.2.1.symm) (hPa.2.2.2.trans hPb.2.2.2.symm)
      (hPa.1.trans hPb.1.symm) (hpa.1.2.trans hpb.1.2.symm)
      (hpa.2.trans hpb.2.symm)

/-- **C6.**  The full per-port compile is a pure function of its inputs as
seen through the policy-store reads: with any store-consistent caches its
value equals the cache-free compile `_add_aclsD`, any two invocations with
consistent caches agree, and rerunning it on the caches the first run
returned (no policy change in between) reproduces the same ACL set. -/
theorem C6_pure_compile (plugin : Plugin) (port : Port)
    (sgc sgc2 : Cache SecurityGroup) (spc spc2 : Cache (List String))
    (sc sc2 : Cache Subnet)
    (hg : CacheConsistent plugin.get_security_group sgc)
    (hp : CacheConsistent plugin.get_ports_in_group spc)
    (hs : CacheConsistent plugin.get_subnet sc)
    (hg2 : CacheConsistent plugin.get_security_group sgc2)
    (hp2 : CacheConsistent plugin.get_ports_in_group spc2)
    (hs2 : CacheConsistent plugin.get_subnet sc2) :
    (_add_acls plugin port sgc spc sc).fst = _add_aclsD plugin port ∧
    (_add_acls plugin port sgc spc sc).fst =
      (_add_acls plugin port sgc2 spc2 sc2).fst ∧
    (_add_acls plugin port
        (_add_acls plugin port sgc spc sc).snd.fst
        (_add_acls plugin port sgc spc sc).snd.snd.fst
        (_add_acls plugin port sgc spc sc).snd.snd.snd).fst =
      (_add_acls plugin port sgc spc sc).fst := by
  obtain ⟨h1, hcg, hcp, hcs⟩ := _add_acls_spec plugin port sgc spc sc hg hp hs
  obtain ⟨h2, _, _, _⟩ := _add_acls_spec plugin port sgc2 spc2 sc2 hg2 hp2 hs2
  obtain ⟨h3, _, _, _⟩ := _add_acls_spec plugin port _ _ _ hcg hcp hcs
  exact ⟨h1, by rw [h1, h2], by rw [h3, h1]⟩

/-- Witness for C6 at fresh (empty, trivially consistent) caches. -/
theorem C6_pure_compile_witness :
    CacheConsistent pluginW.get_security_group
        ([] : Cache SecurityGroup) ∧
      (_add_acls pluginW portW [] [] []).fst = _add_aclsD pluginW portW := by
  have hg : CacheConsistent pluginW.get_security_group
      ([] : Cache SecurityGroup) := fun kv h => absurd h (List.not_mem_nil kv)
  have hp : CacheConsistent pluginW.get_ports_in_group
      ([] : Cache (List String)) := fun kv h => absurd h (List.not_mem_nil kv)
  have hs : CacheConsistent pluginW.get_subnet ([] : Cache Subnet) :=
    fun kv h => absurd h (List.not_mem_nil kv)
  exact ⟨hg, (C6_pure_compile pluginW portW [] [] [] [] [] []
    hg hp hs hg hp hs).1⟩

/-- The full-recompute loop preserves cache consistency. -/
theorem full_branch_cc (plugin : Plugin) :
    ∀ (ps : List Port) (sgc : Cache SecurityGroup)
      (spc : Cache (List String)) (sc : Cache Subnet),
    CacheConsistent plugin.get_security_group sgc →
    CacheConsistent plugin.get_ports_in_group spc →
    CacheConsistent plugin.get_subnet sc →
    CacheConsistent plugin.get_security_group
        (full_branch plugin ps sgc spc sc).snd.fst ∧
      CacheConsistent plugin.get_ports_in_group
        (full_branch plugin ps sgc spc sc).snd.snd.fst ∧
      CacheConsistent plugin.get_subnet
        (full_branch plugin ps sgc spc sc).snd.snd.snd := by
  intro ps
  induction ps with
  | nil => intro sgc spc sc hg hp hs; exact ⟨hg, hp, hs⟩
  | cons p rest ih =>
    intro sgc spc sc hg hp hs
    obtain ⟨_, hg2, hp2, hs2⟩ := _add_acls_spec plugin p sgc spc sc hg hp hs
    simp only [full_branch]
    exact ih _ _ _ hg2 hp2 hs2

/-- The full-recompute path of `_update_acls_for_security_group` always
succeeds, requests a compare (`need_compare = true`), targets exactly the
group's member ports minus the excluded ones, and preserves cache
consistency. -/
theorem update_acls_full_spec (plugin : Plugin) (g : String)
    (sgc : Cache SecurityGroup) (spc : Cache (List String))
    (sc : Cache Subnet) (exclude : List String)
    (hg : CacheConsistent plugin.get_security_group sgc)
    (hp : CacheConsistent plugin.get_ports_in_group spc)
    (hs : CacheConsistent plugin.get_subnet sc) :
    ∃ t, _update_acls_for_security_group plugin g sgc spc sc exclude none
        true = .ok t ∧
      t.fst.need_compare = true ∧
      t.fst.port_ids = (plugin.get_ports
        ((dedup (plugin.get_ports_in_group g)).filter
          (fun pid => !(exclude.contains pid)))).map (fun p => p.id) ∧
      CacheConsistent plugin.get_security_group t.snd.fst ∧
      CacheConsistent plugin.get_ports_in_group t.snd.snd.fst ∧
      CacheConsistent plugin.get_subnet t.snd.snd.snd := by
  have hf := cache_fetch_fst plugin.get_ports_in_group spc g hp
  have hcf := cache_fetch_snd_consistent plugin.get_ports_in_group spc g hp
  obtain ⟨hg2, hp2, hs2⟩ := full_branch_cc plugin
    (plugin.get_ports ((dedup (cache_fetch plugin.get_ports_in_group spc
      g).fst).filter (fun pid => !(exclude.contains pid))))
    sgc (cache_fetch plugin.get_ports_in_group spc g).snd sc hg hcf hs
  simp only [_update_acls_for_security_group]
  rw [hf] at hg2 hp2 hs2 ⊢
  exact ⟨_, rfl, rfl, rfl, hg2, hp2, hs2⟩

/-- The refresh loop succeeds, issues one full recompute per listed group
in order, and each issued call carries `need_compare` and the group's
member ports minus the exclusions. -/
theorem refresh_go_spec (plugin : Plugin) (exclude : List String) :
    ∀ (gs : List String) (sgc : Cache SecurityGroup)
      (spc : Cache (List String)) (sc : Cache Subnet),
    CacheConsistent plugin.get_security_group sgc →
    CacheConsistent plugin.get_ports_in_group spc →
    CacheConsistent plugin.get_subnet sc →
    ∃ out, refresh_go plugin exclude gs sgc spc sc = .ok out ∧
      out.fst.map Prod.fst = gs ∧
      ∀ gc ∈ out.fst, gc.snd.need_compare = true ∧
        gc.snd.port_ids = (plugin.get_ports
          ((dedup (plugin.get_ports_in_group gc.fst)).filter
            (fun pid => !(exclude.contains pid)))).map (fun p => p.id) := by
  intro gs
  induction gs with
  | nil =>
    intro sgc spc sc hg hp hs
    exact ⟨([], sgc, spc, sc), rfl, rfl, by simp⟩
  | cons g rest ih =>
    intro sgc spc sc hg hp hs
    obtain ⟨t, htu, hnc, hpi, hg2, hp2, hs2⟩ :=
      update_acls_full_spec plugin g sgc spc sc exclude hg hp hs
    obtain ⟨out2, ho2, hmap2, hall2⟩ := ih _ _ _ hg2 hp2 hs2
    refine ⟨((g, t.fst) :: out2.fst, out2.snd), ?_, ?_, ?_⟩
    · simp only [refresh_go, htu, ho2]
    · simp only [List.map_cons, hmap2]
    · intro gc hgc
      rcases List.mem_cons.mp hgc with h | h
      · subst h
        exact ⟨hnc, hpi⟩
      · exact hall2 gc h

/-- Membership in the recomputed port-id set: a port id is targeted exactly
when it belongs to the group, is not excluded, and exists in the store. -/
theorem mem_compiled_port_ids (plugin : Plugin) (g : String)
    (exclude : List String) (pid : String) :
    pid ∈ (plugin.get_ports ((dedup (plugin.get_ports_in_group g)).filter
        (fun q => !(exclude.contains q)))).map (fun p => p.id) ↔
      (pid ∈ plugin.get_ports_in_group g ∧ pid ∉ exclude ∧
        ∃ p ∈ plugin.ports, p.id = pid) := by
  simp only [Plugin.get_ports, List.mem_map, List.mem_filter, mem_dedup]
  constructor
  · rintro ⟨p, ⟨hp, hc⟩, hid⟩
    rw [hid] at hc
    have hc2 : pid ∈ (dedup (plugin.get_ports_in_group g)).filter
        (fun q => !(exclude.contains q)) := by
      simpa [List.contains_iff_exists_mem_beq] using hc
    have hc3 := List.mem_filter.mp hc2
    refine ⟨mem_dedup.mp hc3.1, ?_, p, hp, hid⟩
    have := hc3.2
    simp at this
    exact this
  · rintro ⟨hmem, hexc, p, hp, hid⟩
    refine ⟨p, ⟨hp, ?_⟩, hid⟩
    rw [hid]
    have hc2 : pid ∈ (dedup (plugin.get_ports_in_group g)).filter
        (fun q => !(exclude.contains q)) := by
      rw [List.mem_filter]
      exact ⟨mem_dedup.mpr hmem, by simpa using hexc⟩
    simpa [List.contains_iff_exists_mem_beq] using hc2

/-- **C4.**  When a group's membership may have changed, the coordinator
refreshes exactly the groups holding a rule that references the changed
group as remote-group: each gets one full recompute (`need_compare`)
covering precisely its member ports that exist in the store, minus the
triggering port, whose id is subtracted from the recomputed port set (the
port-create and port-update flows pass `[port.id]` as the exclusion). -/
theorem C4_cascading_refresh (plugin : Plugin) (sec_group trigger : String)
    (sgc : Cache SecurityGroup) (spc : Cache (List String))
    (sc : Cache Subnet)
    (hg : CacheConsistent plugin.get_security_group sgc)
    (hp : CacheConsistent plugin.get_ports_in_group spc)
    (hs : CacheConsistent plugin.get_subnet sc) :
    ∃ out, _refresh_remote_security_group plugin sec_group sgc spc sc
        [trigger] = .ok out ∧
      (∀ g, g ∈ out.fst.map Prod.fst ↔
        g ∈ plugin.groups_with_rules_referencing sec_group) ∧
      ∀ gc ∈ out.fst, gc.snd.need_compare = true ∧
        ∀ pid, pid ∈ gc.snd.port_ids ↔
          (pid ∈ plugin.get_ports_in_group gc.fst ∧ pid ≠ trigger ∧
            ∃ p ∈ plugin.ports, p.id = pid) := by
  obtain ⟨out, ho, hmap, hall⟩ := refresh_go_spec plugin [trigger]
    (dedup (plugin.groups_with_rules_referencing sec_group)) sgc spc sc
    hg hp hs
  refine ⟨out, ho, ?_, ?_⟩
  · intro g
    rw [hmap]
    exact mem_dedup
  · intro gc hgc
    obtain ⟨hnc, hpi⟩ := hall gc hgc
    refine ⟨hnc, ?_⟩
    intro pid
    rw [hpi, mem_compiled_port_ids]
    simp [List.mem_singleton]

/-- Witness for C4 at the concrete cascade fixture: `GB` references `GA`;
creating port `P1` in `GA` refreshes `GB` excluding `P1`. -/
theorem C4_cascading_refresh_witness :
    CacheConsistent plugin4W.get_security_group
        ([] : Cache SecurityGroup) ∧
      ∃ out, _refresh_remote_security_group plugin4W "GA" [] [] []
          ["P1"] = .ok out ∧
        (∀ g, g ∈ out.fst.map Prod.fst ↔
          g ∈ plugin4W.groups_with_rules_referencing "GA") ∧
        ∀ gc ∈ out.fst, gc.snd.need_compare = true ∧
          ∀ pid, pid ∈ gc.snd.port_ids ↔
            (pid ∈ plugin4W.get_ports_in_group gc.fst ∧ pid ≠ "P1" ∧
              ∃ p ∈ plugin4W.ports, p.id = pid) := by
  have hg : CacheConsistent plugin4W.get_security_group
      ([] : Cache SecurityGroup) := fun kv h => absurd h (List.not_mem_nil kv)
  have hp : CacheConsistent plugin4W.get_ports_in_group
      ([] : Cache (List String)) := fun kv h => absurd h (List.not_mem_nil kv)
  have hs : CacheConsistent plugin4W.get_subnet ([] : Cache Subnet) :=
    fun kv h => absurd h (List.not_mem_nil kv)
  exact ⟨hg, C4_cascading_refresh plugin4W "GA" "P1" [] [] [] hg hp hs⟩

end NetworkingOvn
